import Mathlib

/-!
# Verification of `fast_boot_core/schemas.py`

Shallow embedding of the temporal-coercion validator
(`Schema.datetime_or_date_to_timestamp`), the sort-criteria mini-language
(`Sort.from_str` / `Sort.to_str` / `Sort.query_regex`) and the pagination
descriptor (`Pageable`) from `src/fast_boot_core/schemas.py`, together with
theorems settling the frozen claims about them.

Modelling conventions:
* Python runtime values that can reach the validator are an inductive `PyVal`
  (`None`, `bool`, `int`, `float`, `str`, `datetime`, `date`, and a catch-all
  `other` for any object `float()` cannot convert).
* Python floats are modelled exactly as rationals plus `inf`/`nan` specials
  (`PyFloat`); binary64 rounding is not modelled — no claim depends on it.
* Raised exceptions are modelled as `Except PyErr`; exception messages are
  dropped, only the exception kind is kept (`TypeError`, `ValueError`,
  pydantic `ValidationError`).
* The process-local timezone that `datetime.timestamp()` /
  `datetime.fromtimestamp()` consult is an explicit parameter `tz`
  (seconds east of UTC); theorems quantify over it.
-/

/-- Exception kinds that the embedded code can raise.  Python messages are not
modelled. -/
inductive PyErr where
  | typeError
  | valueError
  | validationError
deriving DecidableEq, Repr

/-- `Sort.Direction` from the source: a `str`-valued enum with members
`ASC = "asc"` and `DESC = "desc"` (declaration order: asc, desc). -/
inductive Direction where
  | asc
  | desc
deriving DecidableEq, Repr

/-- The serialized string of a `Sort.Direction` member (its enum `value`;
also how the member renders inside an f-string on the Python versions this
pydantic-v1 code targets). -/
def Direction.value : Direction → String
  | .asc => "asc"
  | .desc => "desc"

/-- Pydantic coercion of a raw string into the `Direction` enum: succeeds
exactly on the enum values. -/
def Direction.fromValue (s : String) : Option Direction :=
  if s = "asc" then some .asc
  else if s = "desc" then some .desc
  else none

/-- The member values in enum declaration order, as iterated by
`[v.value for v in Sort.Direction]` in `Sort.query_regex`. -/
def Direction.values : List String := [Direction.asc.value, Direction.desc.value]

/-- A Python `datetime.date` value. -/
structure DateV where
  year : Nat
  month : Nat
  day : Nat
deriving DecidableEq, Repr

/-- A Python `datetime.datetime` value.  `tz` is the attached UTC offset in
seconds (`None` for naive datetimes); offsets are rationals because Python
timezone offsets may carry microseconds. -/
structure Datetime where
  year : Nat
  month : Nat
  day : Nat
  hour : Nat
  minute : Nat
  second : Nat
  usec : Nat
  tz : Option Rat
deriving DecidableEq, Repr

/-- A Python float: exact rationals plus the `inf`/`nan` specials. -/
inductive PyFloat where
  | finite (q : Rat)
  | inf (positive : Bool)
  | nan
deriving DecidableEq, Repr

/-- The universe of Python runtime values the validator can receive. -/
inductive PyVal where
  | none
  | bool (b : Bool)
  | int (n : Int)
  | float (f : PyFloat)
  | str (s : String)
  | datetime (dt : Datetime)
  | date (d : DateV)
  | other
deriving DecidableEq, Repr

/-- The declared type of the pydantic model field (`field.type_`) as inspected
by the validator: `datetime`, `date`, or anything else. -/
inductive FieldType where
  | datetime
  | date
  | other
deriving DecidableEq, Repr

/- ### Proleptic-Gregorian calendar arithmetic

Days-from-civil / civil-from-days (the standard era-based algorithms), used to
model `datetime.timestamp()` and `datetime.fromtimestamp()`. -/

/-- Days from 1970-01-01 to year/month/day in the proleptic Gregorian
calendar. -/
def daysFromCivil (y : Int) (m d : Nat) : Int :=
  let y' : Int := if m ≤ 2 then y - 1 else y
  let era : Int := Int.fdiv y' 400
  let yoe : Int := y' - era * 400
  let mp : Nat := if 2 < m then m - 3 else m + 9
  let doy : Int := (153 * (mp : Int) + 2) / 5 + (d : Int) - 1
  let doe : Int := yoe * 365 + yoe / 4 - yoe / 100 + doy
  era * 146097 + doe - 719468

/-- Civil year/month/day from days since 1970-01-01. -/
def civilFromDays (z0 : Int) : Int × Nat × Nat :=
  let z := z0 + 719468
  let era : Int := Int.fdiv z 146097
  let doe : Int := z - era * 146097
  let yoe : Int := (doe - doe / 1460 + doe / 36524 - doe / 146096) / 365
  let y : Int := yoe + era * 400
  let doy : Int := doe - (365 * yoe + yoe / 4 - yoe / 100)
  let mp : Int := (5 * doy + 2) / 153
  let d : Nat := (doy - (153 * mp + 2) / 5 + 1).toNat
  let m : Nat := (if mp < 10 then mp + 3 else mp - 9).toNat
  (if m ≤ 2 then y + 1 else y, m, d)

/-- Whether `y` is a Gregorian leap year. -/
def isLeapYear (y : Nat) : Bool :=
  (y % 4 = 0 && y % 100 ≠ 0) || y % 400 = 0

/-- Number of days in the given month. -/
def daysInMonth (y m : Nat) : Nat :=
  if m = 2 then (if isLeapYear y then 29 else 28)
  else if m = 4 ∨ m = 6 ∨ m = 9 ∨ m = 11 then 30
  else 31

/-- Validity check performed by the `datetime.date` / `datetime.datetime`
constructors on the date components. -/
def validDate (y m d : Nat) : Bool :=
  1 ≤ y && y ≤ 9999 && 1 ≤ m && m ≤ 12 && 1 ≤ d && d ≤ daysInMonth y m

/-- Seconds since the epoch of a datetime's wall-clock reading interpreted as
UTC. -/
def wallEpochSecs (dt : Datetime) : Rat :=
  (86400 * daysFromCivil (dt.year : Int) dt.month dt.day
    + 3600 * (dt.hour : Int) + 60 * (dt.minute : Int) + (dt.second : Int) : Int)
  + (dt.usec : Rat) / 1000000

/-- `datetime.timestamp()`: a naive datetime is interpreted in the process
timezone `tz`, an aware one uses its own offset. -/
def timestampPy (tz : Int) (dt : Datetime) : Rat :=
  match dt.tz with
  | some off => wallEpochSecs dt - off
  | none => wallEpochSecs dt - (tz : Rat)

/-- `datetime.fromtimestamp(q)` (no `tz` argument): converts an epoch value to
a naive datetime in the process timezone `tz`, or `none` when the conversion
raises (non-finite input, or a resulting year outside 1..9999).  The
sub-microsecond rounding is half-up; CPython rounds half-even, which no claim
depends on. -/
def fromtimestampOpt (tz : Int) (f : PyFloat) : Option Datetime :=
  match f with
  | .inf _ => none
  | .nan => none
  | .finite q =>
    -- `floor((q + tz) * 10^6 + 1/2)` computed on the numerator/denominator so
    -- that it evaluates by pure integer arithmetic
    let usTotal : Int :=
      (2 * (q.num + tz * (q.den : Int)) * 1000000 + (q.den : Int)).fdiv
        (2 * (q.den : Int))
    let secs : Int := usTotal.fdiv 1000000
    let us : Nat := (usTotal.fmod 1000000).toNat
    let days : Int := secs.fdiv 86400
    let sod : Nat := (secs.fmod 86400).toNat
    let c := civilFromDays days
    let y : Int := c.1
    if 1 ≤ y ∧ y ≤ 9999 then
      some { year := y.toNat, month := c.2.1, day := c.2.2,
             hour := sod / 3600, minute := sod % 3600 / 60, second := sod % 60,
             usec := us, tz := Option.none }
    else none

/- ### Python `float(str)` parsing

Model of CPython's float-from-string conversion: surrounding whitespace is
stripped, an optional sign is followed by `inf`/`infinity`/`nan`
(case-insensitive) or a decimal literal `digits [. [digits]] [(e|E) [sign]
digits]` in which each digit run may contain single underscores between
digits.  Values are exact rationals (binary64 rounding not modelled). -/

/-- Whitespace stripped by `float(str)` (ASCII subset; exotic Unicode spaces
are not modelled). -/
def isPySpace (c : Char) : Bool :=
  c = ' ' || c = '\t' || c = '\n' || c = '\r' || c = '\x0b' || c = '\x0c'

/-- Strip leading and trailing `isPySpace` characters. -/
def stripWs (cs : List Char) : List Char :=
  ((cs.dropWhile isPySpace).reverse.dropWhile isPySpace).reverse

/-- Consume a run of digits with optional single underscores between digits;
returns the accumulated value, the number of digits consumed so far, and the
unconsumed remainder. -/
def groupRest (acc n : Nat) : List Char → Nat × Nat × List Char
  | [] => (acc, n, [])
  | c :: cs =>
    if c.isDigit then groupRest (10 * acc + (c.toNat - 48)) (n + 1) cs
    else if c = '_' then
      match cs with
      | d :: cs' =>
        if d.isDigit then groupRest (10 * acc + (d.toNat - 48)) (n + 1) cs'
        else (acc, n, c :: cs)
      | [] => (acc, n, [c])
    else (acc, n, c :: cs)

/-- Consume a digit run that must start with a digit. -/
def parseDigitGroup (cs : List Char) : Option (Nat × Nat × List Char) :=
  match cs with
  | c :: _ => if c.isDigit then some (groupRest 0 0 cs) else none
  | [] => none

/-- Parse the mantissa `digits [. [digits]] | . digits` of a float literal. -/
def parseMantissa (cs : List Char) : Option (Rat × List Char) :=
  match cs with
  | '.' :: rest =>
    match parseDigitGroup rest with
    | some (v, k, rem) => some ((v : Rat) / (10 : Rat) ^ k, rem)
    | none => none
  | _ =>
    match parseDigitGroup cs with
    | some (ip, _, rem) =>
      match rem with
      | '.' :: rest2 =>
        match parseDigitGroup rest2 with
        | some (fv, fk, rem2) => some ((ip : Rat) + (fv : Rat) / (10 : Rat) ^ fk, rem2)
        | none => some ((ip : Rat), rest2)
      | _ => some ((ip : Rat), rem)
    | none => none

/-- Apply an optional decimal exponent `(e|E)[sign]digits` to a mantissa. -/
def parseExponent (m : Rat) (cs : List Char) : Option (Rat × List Char) :=
  match cs with
  | c :: rest =>
    if c = 'e' ∨ c = 'E' then
      let signed : Bool × List Char :=
        match rest with
        | '-' :: r2 => (true, r2)
        | '+' :: r2 => (false, r2)
        | _ => (false, rest)
      match parseDigitGroup signed.2 with
      | some (e, _, rem) =>
        some ((if signed.1 then m / (10 : Rat) ^ e else m * (10 : Rat) ^ e), rem)
      | none => none
    else some (m, cs)
  | [] => some (m, cs)

/-- Model of CPython `float(str)`: `none` when the conversion raises
`ValueError`. -/
def pyFloatParse (s : String) : Option PyFloat :=
  let cs := stripWs s.data
  let body : Bool × List Char :=
    match cs with
    | '-' :: r => (true, r)
    | '+' :: r => (false, r)
    | _ => (false, cs)
  let neg := body.1
  let low := body.2.map Char.toLower
  if low = "inf".data ∨ low = "infinity".data then some (.inf (!neg))
  else if low = "nan".data then some .nan
  else
    match parseMantissa body.2 with
    | some (m, rem) =>
      match parseExponent m rem with
      | some (v, []) => some (.finite (if neg then -v else v))
      | _ => none
    | none => none

/- ### `datetime.fromisoformat` (CPython ≤ 3.10 grammar)

The grammar accepted by the CPython versions this pydantic-v1 code targets:
`YYYY-MM-DD[<any one char>HH[:MM[:SS[.fff[fff]]]][(+|-)HH:MM[:SS[.ffffff]]]]`.
The leniencies of CPython's `int()` on the sliced components (leading sign,
surrounding whitespace, underscores) are not modelled: components must be
digits. -/

/-- Read exactly two digits. -/
def read2 : List Char → Option (Nat × List Char)
  | c1 :: c2 :: rest =>
    if c1.isDigit && c2.isDigit then
      some ((c1.toNat - 48) * 10 + (c2.toNat - 48), rest)
    else none
  | _ => none

/-- Fraction part of an ISO time: exactly 3 or 6 digits, as microseconds. -/
def parseFrac (cs : List Char) : Option Nat :=
  if cs.length = 3 ∧ cs.all Char.isDigit then
    some ((cs.foldl (fun a c => 10 * a + (c.toNat - 48)) 0) * 1000)
  else if cs.length = 6 ∧ cs.all Char.isDigit then
    some (cs.foldl (fun a c => 10 * a + (c.toNat - 48)) 0)
  else none

/-- CPython `_parse_hh_mm_ss_ff`: `HH[:MM[:SS[.fff[fff]]]]`, consuming the
whole input; no range validation here (the datetime constructor validates). -/
def parse_hh_mm_ss_ff (cs : List Char) : Option (Nat × Nat × Nat × Nat) :=
  match read2 cs with
  | Option.none => none
  | some (hh, rest) =>
    match rest with
    | [] => some (hh, 0, 0, 0)
    | ':' :: r2 =>
      match read2 r2 with
      | Option.none => none
      | some (mm, rest2) =>
        match rest2 with
        | [] => some (hh, mm, 0, 0)
        | ':' :: r3 =>
          match read2 r3 with
          | Option.none => none
          | some (ss, rest3) =>
            match rest3 with
            | [] => some (hh, mm, ss, 0)
            | '.' :: fr => (parseFrac fr).map (fun us => (hh, mm, ss, us))
            | _ => none
        | _ => none
    | _ => none

/-- Position of the first occurrence of `c`, `Sort.from_str`'s `str.index`. -/
def firstIdx (c : Char) : List Char → Option Nat
  | [] => none
  | x :: xs => if x = c then some 0 else (firstIdx c xs).map (· + 1)

/-- CPython `_parse_isoformat_time`: the time-of-day part, split at the first
`-` (else the first `+`) into wall time and UTC offset.  Returns hour, minute,
second, microsecond and the optional offset in seconds. -/
def parseIsoTime (cs : List Char) : Option (Nat × Nat × Nat × Nat × Option Rat) :=
  if cs.length < 2 then none
  else
    let tzIdx : Option Nat :=
      match firstIdx '-' cs with
      | some i => some i
      | Option.none => firstIdx '+' cs
    match tzIdx with
    | Option.none =>
      (parse_hh_mm_ss_ff cs).map (fun t => (t.1, t.2.1, t.2.2.1, t.2.2.2, Option.none))
    | some i =>
      let timestr := cs.take i
      let isNeg : Bool := decide ((cs.drop i).head? = some '-')
      let tzstr := cs.drop (i + 1)
      match parse_hh_mm_ss_ff timestr with
      | Option.none => none
      | some t =>
        if tzstr.length = 5 ∨ tzstr.length = 8 ∨ tzstr.length = 15 then
          match parse_hh_mm_ss_ff tzstr with
          | some (th, tm, ts, tus) =>
            let mag : Rat := 3600 * th + 60 * tm + ts + (tus : Rat) / 1000000
            if mag < 86400 then
              some (t.1, t.2.1, t.2.2.1, t.2.2.2,
                    some (if isNeg then -mag else mag))
            else none
          | Option.none => none
        else none

/-- Model of CPython ≤ 3.10 `datetime.fromisoformat`: `none` when it raises. -/
def fromisoformat (s : String) : Option Datetime :=
  match s.data with
  | y1 :: y2 :: y3 :: y4 :: '-' :: m1 :: m2 :: '-' :: d1 :: d2 :: rest =>
    if [y1, y2, y3, y4, m1, m2, d1, d2].all Char.isDigit then
      let y := ((y1.toNat - 48) * 10 + (y2.toNat - 48)) * 100
               + (y3.toNat - 48) * 10 + (y4.toNat - 48)
      let m := (m1.toNat - 48) * 10 + (m2.toNat - 48)
      let d := (d1.toNat - 48) * 10 + (d2.toNat - 48)
      if validDate y m d then
        match rest with
        | [] => some ⟨y, m, d, 0, 0, 0, 0, Option.none⟩
        | _sep :: t =>
          match parseIsoTime t with
          | some (hh, mm, ss, us, off) =>
            if hh ≤ 23 ∧ mm ≤ 59 ∧ ss ≤ 59 then
              some ⟨y, m, d, hh, mm, ss, us, off⟩
            else none
          | Option.none => none
      else none
    else none
  | _ => none

/- ### `datetime.strptime(v, '%Y-%m-%d')`

CPython `_strptime`: `%Y` is exactly four digits, `%m` matches
`1[0-2]|0[1-9]|[1-9]`, `%d` matches `3[01]|[12]\d|0[1-9]|[1-9]`, the whole
string must be consumed, and the datetime constructor validates the date. -/

/-- One- or two-digit month token, per the `%m` regex alternatives. -/
def parseMonthTok : List Char → Option (Nat × List Char)
  | c1 :: c2 :: rest =>
    if c1 = '1' ∧ '0' ≤ c2 ∧ c2 ≤ '2' then some (10 + (c2.toNat - 48), rest)
    else if c1 = '0' ∧ '1' ≤ c2 ∧ c2 ≤ '9' then some (c2.toNat - 48, rest)
    else if '1' ≤ c1 ∧ c1 ≤ '9' then some (c1.toNat - 48, c2 :: rest)
    else none
  | [c1] => if '1' ≤ c1 ∧ c1 ≤ '9' then some (c1.toNat - 48, []) else none
  | [] => none

/-- One- or two-digit day token, per the `%d` regex alternatives. -/
def parseDayTok : List Char → Option (Nat × List Char)
  | c1 :: c2 :: rest =>
    if c1 = '3' ∧ (c2 = '0' ∨ c2 = '1') then some (30 + (c2.toNat - 48), rest)
    else if ('1' ≤ c1 ∧ c1 ≤ '2') ∧ c2.isDigit then
      some ((c1.toNat - 48) * 10 + (c2.toNat - 48), rest)
    else if c1 = '0' ∧ '1' ≤ c2 ∧ c2 ≤ '9' then some (c2.toNat - 48, rest)
    else if '1' ≤ c1 ∧ c1 ≤ '9' then some (c1.toNat - 48, c2 :: rest)
    else none
  | [c1] => if '1' ≤ c1 ∧ c1 ≤ '9' then some (c1.toNat - 48, []) else none
  | [] => none

/-- Model of `datetime.strptime(s, '%Y-%m-%d')`: `none` when it raises. -/
def strptimeYmd (s : String) : Option Datetime :=
  match s.data with
  | y1 :: y2 :: y3 :: y4 :: '-' :: rest =>
    if [y1, y2, y3, y4].all Char.isDigit then
      let y := ((y1.toNat - 48) * 10 + (y2.toNat - 48)) * 100
               + (y3.toNat - 48) * 10 + (y4.toNat - 48)
      match parseMonthTok rest with
      | some (m, '-' :: rest2) =>
        match parseDayTok rest2 with
        | some (d, []) =>
          if validDate y m d then some ⟨y, m, d, 0, 0, 0, 0, Option.none⟩ else none
        | _ => none
      | _ => none
    else none
  | _ => none

/- ### The temporal coercion validator

`Schema.datetime_or_date_to_timestamp` (pre-validation hook).  The source
first computes `is_numeric` with `try: bool(float(v)) except ValueError:`;
`float(v)` raises `TypeError` (not caught) for `None`, `datetime`, `date` and
other non-convertible objects, so those escape before any branch runs. -/

/-- `float(v)` for a runtime value: `TypeError` for non-convertible types,
`ValueError` for non-numeric strings. -/
def pyFloatOf : PyVal → Except PyErr PyFloat
  | .int n => .ok (.finite (n : Rat))
  | .float f => .ok f
  | .bool b => .ok (.finite (if b then 1 else 0))
  | .str s =>
    match pyFloatParse s with
    | some f => .ok f
    | Option.none => .error .valueError
  | _ => .error .typeError

/-- The `is_numeric` probe: `try: bool(float(v)); is_numeric = True except
ValueError: is_numeric = False`.  Only `ValueError` is caught; a `TypeError`
from `float(v)` propagates. -/
def floatProbe (v : PyVal) : Except PyErr Bool :=
  match pyFloatOf v with
  | .ok _ => .ok true
  | .error .valueError => .ok false
  | .error e => .error e

/-- `type(v) in {int, float}` (exact type, so `bool` is excluded). -/
def isIntOrFloat : PyVal → Bool
  | .int _ => true
  | .float _ => true
  | _ => false

/-- Embedding of `Schema.datetime_or_date_to_timestamp(cls, v, **kwargs)`:
the class-wide `pre=True` validator, dispatching on the field's declared type
`ft` and the runtime value `v`; `tz` is the process timezone. -/
def datetime_or_date_to_timestamp (tz : Int) (ft : FieldType) (v : PyVal) :
    Except PyErr PyVal :=
  match ft with
  | .datetime =>
    match floatProbe v with
    | .error e => .error e
    | .ok is_numeric =>
      match v with
      | .none => .ok .none
      | .datetime dt => .ok (.datetime { dt with tz := Option.none })
      | _ =>
        if isIntOrFloat v || is_numeric then
          match pyFloatOf v with
          | .ok f =>
            match fromtimestampOpt tz f with
            | some dt => .ok (.datetime dt)
            | Option.none => .error .valueError
          | .error _ => .error .valueError
        else
          match v with
          | .str s =>
            match fromisoformat s with
            | some dt => .ok (.float (.finite (timestampPy tz dt)))
            | Option.none => .error .valueError
          | _ => .ok v
  | .date =>
    match floatProbe v with
    | .error e => .error e
    | .ok is_numeric =>
      match v with
      | .none => .ok .none
      | .date d => .ok (.date d)
      | _ =>
        if isIntOrFloat v || is_numeric then
          match pyFloatOf v with
          | .ok f =>
            match fromtimestampOpt tz f with
            | some dt => .ok (.datetime dt)
            | Option.none => .error .valueError
          | .error _ => .error .valueError
        else
          match v with
          | .str s =>
            match strptimeYmd s with
            | some dt => .ok (.float (.finite (timestampPy tz dt)))
            | Option.none => .error .valueError
          | _ => .ok v
  | .other => .ok v

/- ### The sort-criteria mini-language

Source class `Sort` (Lean reserves the identifier `Sort`, hence the spec's
name `SortCriterion`).  Fields default to `None` in the source, but every
value these claims touch has both fields set, so they are modelled as
non-optional. -/

/-- One sort criterion: source class `Sort`. -/
structure SortCriterion where
  order_by : String
  direction : Direction
deriving DecidableEq, Repr

/-- `Sort.from_str`: `order_by = s[:s.index("(")]`,
`direction = s[s.index("(") + 1 : s.index(")")]` — both `index` calls search
from the start of the string and raise `ValueError` when absent; the
constructor call validates `direction` against the enum (pydantic
`ValidationError` on mismatch). -/
def SortCriterion.from_str (s : String) : Except PyErr SortCriterion :=
  match firstIdx '(' s.data with
  | Option.none => .error .valueError
  | some i =>
    match firstIdx ')' s.data with
    | Option.none => .error .valueError
    | some j =>
      match Direction.fromValue (String.mk ((s.data.drop (i + 1)).take (j - (i + 1)))) with
      | some d => .ok { order_by := String.mk (s.data.take i), direction := d }
      | Option.none => .error .validationError

/-- `Sort.to_str`: the f-string rendering `{order_by}({direction})`. -/
def SortCriterion.to_str (sc : SortCriterion) : String :=
  sc.order_by ++ "(" ++ sc.direction.value ++ ")"

/-- `Sort.query_regex()`: the pattern string built from the enum values. -/
def SortCriterion.query_regex : String :=
  "^.+\\((?:" ++ String.intercalate "|" Direction.values ++ ")\\)$"

/- Matching semantics of `re.match(Sort.query_regex(), s)` under CPython
`re`: `.` matches any character except a newline, and `$` matches at the end
of the string or just before a trailing newline. -/

/-- Python `$` at this position: end of input or a single trailing newline. -/
def pyDollar : List Char → Bool
  | [] => true
  | [c] => c = '\n'
  | _ => false

/-- The `\((?:asc|desc)\)$` part of the pattern at the current position, the
alternation iterating the enum values. -/
def parenSuffix (cs : List Char) : Bool :=
  Direction.values.any fun d =>
    ('(' :: d.data ++ [')']).isPrefixOf cs && pyDollar (cs.drop (d.data.length + 2))

/-- After `.+` has consumed at least one character: either the suffix matches
here, or `.` consumes one more non-newline character. -/
def dotPlusThen : List Char → Bool
  | [] => parenSuffix []
  | c :: cs => parenSuffix (c :: cs) || (c != '\n' && dotPlusThen cs)

/-- `re.match(Sort.query_regex(), s)` produces a match: `^` anchors at the
start and `.+` must consume at least one (non-newline) character. -/
def query_regex_match (s : String) : Bool :=
  match s.data with
  | [] => false
  | c :: cs => c != '\n' && dotPlusThen cs

/- ### The pagination descriptor -/

/-- `Pageable`: field declaration order in the source is `sort`, `size`,
`page` (with `Field(..., gt=0)` metadata on `size` and `page`). -/
structure Pageable where
  sort : List SortCriterion
  size : Int
  page : Int
deriving DecidableEq, Repr

/-- `Pageable.__init__(self, size, page, sort)`: calls `super().__init__()`
with no arguments (validating only the defaults) and then assigns the three
fields directly.  Pydantic v1's default config has `validate_assignment =
False`, so these assignments bypass the `gt=0` field constraints and the
construction always succeeds. -/
def Pageable.init (size page : Int) (sort : List SortCriterion) : Pageable :=
  { sort := sort, size := size, page := page }

/-- The range constraints declared on the fields (`Field(100, gt=0)`,
`Field(1, gt=0)`), which pydantic would enforce on a validated construction
path. -/
def Pageable.declaredConstraints (p : Pageable) : Bool :=
  decide (0 < p.size) && decide (0 < p.page)

/-- One `sort` entry of the outbound query string:
`f"{key}={v['order_by']}({v['direction']})&"`. -/
def sortEntryQ (sc : SortCriterion) : String :=
  "sort=" ++ sc.order_by ++ "(" ++ sc.direction.value ++ ")&"

/-- `Pageable.to_api_query`: iterates `self.dict().items()` — pydantic v1
`dict()` yields fields in declaration order (`sort`, `size`, `page`) — and
drops the trailing `&` with `string[:-1]`. -/
def Pageable.to_api_query (p : Pageable) : String :=
  (String.join (p.sort.map sortEntryQ)
    ++ ("size=" ++ toString p.size ++ "&")
    ++ ("page=" ++ toString p.page ++ "&")).dropRight 1

/- ### Spec-side comparison definitions

These two definitions follow the specification's words (not the source) and
exist only to be compared against the source-derived definitions above. -/

/-- The parse the spec describes for a sort criterion: everything before the
first `(` is `order_by`, everything between that `(` and the first `)`
AFTER it is `direction` (the source instead uses the first `)` of the whole
string). -/
def from_str_spec (s : String) : Except PyErr SortCriterion :=
  match firstIdx '(' s.data with
  | Option.none => .error .valueError
  | some i =>
    match firstIdx ')' (s.data.drop (i + 1)) with
    | Option.none => .error .valueError
    | some j =>
      match Direction.fromValue (String.mk ((s.data.drop (i + 1)).take j)) with
      | some d => .ok { order_by := String.mk (s.data.take i), direction := d }
      | Option.none => .error .validationError

/-- Membership in the language the claim asserts for `Sort.query_regex()`:
exactly the strings `<non-empty text>(asc|desc)` with nothing after the
closing parenthesis (auxiliary scan: is some suffix starting here exactly
`(d)` for an enum value `d`?). -/
def claimedDirEnd (cs : List Char) : Bool :=
  Direction.values.any fun d => cs = '(' :: d.data ++ [')']

/-- Auxiliary scan for `claimedShapeB`: some split of the remaining input puts
the exact `(asc)`/`(desc)` tail here or further right. -/
def claimedShapeFrom : List Char → Bool
  | [] => false
  | c :: cs => claimedDirEnd (c :: cs) || claimedShapeFrom cs

/-- The claimed language of the validation pattern, per the spec's words:
a non-empty text, then `(`, an enum direction value, then `)`, and nothing
else. -/
def claimedShapeB (s : String) : Bool :=
  match s.data with
  | [] => false
  | _ :: cs => claimedShapeFrom cs

/-- The numeric inputs claim C8 ranges over — an `int`, a `float`, or a
string `float()` accepts — together with their `float(v)` value. -/
def numericFloatVal : PyVal → Option PyFloat
  | .int n => some (.finite (n : Rat))
  | .float f => some f
  | .str s => pyFloatParse s
  | _ => Option.none

/-- Decidable equality of modelled results. -/
instance {ε α : Type} [DecidableEq ε] [DecidableEq α] : DecidableEq (Except ε α) :=
  fun a b =>
    match a, b with
    | .ok x, .ok y =>
      if h : x = y then .isTrue (by rw [h])
      else .isFalse (by intro he; cases he; exact h rfl)
    | .error x, .error y =>
      if h : x = y then .isTrue (by rw [h])
      else .isFalse (by intro he; cases he; exact h rfl)
    | .ok _, .error _ => .isFalse (by intro h; cases h)
    | .error _, .ok _ => .isFalse (by intro h; cases h)

/- ### Helper lemmas -/

/-- Rebuilding a string from its character list is the identity. -/
theorem string_mk_data (s : String) : String.mk s.data = s := by
  cases s
  rfl

/-- Character data of an appended string. -/
theorem string_data_append (a b : String) : (a ++ b).data = a.data ++ b.data := by
  cases a
  cases b
  rfl

/-- `str.index` model: absent character. -/
theorem firstIdx_eq_none {c : Char} {l : List Char} (h : c ∉ l) :
    firstIdx c l = Option.none := by
  induction l with
  | nil => rfl
  | cons x xs ih =>
    simp only [List.mem_cons, not_or] at h
    have hx : ¬ x = c := fun he => h.1 he.symm
    simp [firstIdx, hx, ih h.2]

/-- `str.index` model: first occurrence after a clean prefix. -/
theorem firstIdx_append {c : Char} {l₁ : List Char} (l₂ : List Char)
    (h : c ∉ l₁) : firstIdx c (l₁ ++ c :: l₂) = some l₁.length := by
  induction l₁ with
  | nil => simp [firstIdx]
  | cons x xs ih =>
    simp only [List.mem_cons, not_or] at h
    have hx : ¬ x = c := fun he => h.1 he.symm
    simp [firstIdx, hx, ih h.2]

/-- Behaviour of `Sort.from_str` on an input decomposed at its first `(` and
first `)` (the `)` lying after the `(`). -/
theorem from_str_decomp (s : String) (pre dirs post : List Char)
    (hs : s.data = pre ++ '(' :: (dirs ++ ')' :: post))
    (h1 : '(' ∉ pre) (h2 : ')' ∉ pre) (h3 : ')' ∉ dirs) :
    SortCriterion.from_str s =
      match Direction.fromValue (String.mk dirs) with
      | some d => .ok { order_by := String.mk pre, direction := d }
      | Option.none => .error .validationError := by
  have e1 : firstIdx '(' s.data = some pre.length := by
    rw [hs]
    exact firstIdx_append _ h1
  have hre : s.data = (pre ++ '(' :: dirs) ++ ')' :: post := by
    rw [hs]
    simp
  have h2' : ')' ∉ pre ++ '(' :: dirs := by
    simp only [List.mem_append, List.mem_cons, not_or]
    exact ⟨h2, by decide, h3⟩
  have e2 : firstIdx ')' s.data = some (pre.length + (dirs.length + 1)) := by
    rw [hre, firstIdx_append _ h2']
    simp
  have etake : s.data.take pre.length = pre := by
    rw [hs, List.take_left]
  have edrop : (s.data.drop (pre.length + 1)).take
      (pre.length + (dirs.length + 1) - (pre.length + 1)) = dirs := by
    have hsub : pre.length + (dirs.length + 1) - (pre.length + 1) = dirs.length := by
      omega
    rw [hsub]
    have hre2 : s.data = (pre ++ ['(']) ++ (dirs ++ ')' :: post) := by
      rw [hs]
      simp
    have hlen : pre.length + 1 = (pre ++ ['(']).length := by simp
    rw [hre2, hlen, List.drop_left, List.take_left]
  unfold SortCriterion.from_str
  rw [e1, e2]
  dsimp only
  rw [edrop, etake]

/- ### Claim theorems -/

/-- C1: the claim says constructing a `Pageable` with `size=0` or `page=0`
fails with a `ValidationError`; in the source, `Pageable.__init__` calls
`super().__init__()` with no arguments and then assigns the fields directly,
and pydantic v1 does not validate assignments by default, so the construction
succeeds and produces a descriptor with non-positive `size` and `page`,
violating the `gt=0` constraints declared on the fields themselves. -/
theorem C1_init_bypasses_declared_constraints :
    Pageable.init 0 0 [] = { sort := [], size := 0, page := 0 } ∧
    (Pageable.init 0 0 []).declaredConstraints = false := by
  exact ⟨rfl, rfl⟩

/-- C2: the claim says a `null` input to a datetime- or date-typed field
coerces to `null` and never raises.  In the source the `is_numeric` probe
`bool(float(v))` runs first and `float(None)` raises `TypeError`, which the
`except ValueError` handler does not catch — the `if v is None: return`
branch is unreachable and the validator raises for `null` on both temporal
field types (for every process timezone). -/
theorem C2_null_input_raises :
    ∀ tz : Int,
      datetime_or_date_to_timestamp tz .datetime PyVal.none = .error .typeError ∧
      datetime_or_date_to_timestamp tz .date PyVal.none = .error .typeError := by
  intro tz
  exact ⟨rfl, rfl⟩

/-- C5: the claim says an already-`datetime` input on an instant field is
passed through with its timezone stripped, and an already-`date` input on a
date field is passed through unchanged.  In the source `float(v)` in the
`is_numeric` probe raises `TypeError` for both `datetime` and `date` values
(only `ValueError` is caught), so both passthrough branches are unreachable
and the validator raises instead. -/
theorem C5_passthrough_raises :
    ∀ tz : Int,
      datetime_or_date_to_timestamp tz .datetime
        (.datetime ⟨2023, 5, 1, 12, 0, 0, 0, some 0⟩) = .error .typeError ∧
      datetime_or_date_to_timestamp tz .date
        (.date ⟨2023, 5, 1⟩) = .error .typeError := by
  intro tz
  exact ⟨rfl, rfl⟩

/-- C3 counterexample: rendering the descriptor built from `page=2, size=10,
sort=[id desc]` does not give the claimed string — the source's field
declaration order is `sort`, `size`, `page`, so `sort` is rendered first. -/
theorem C3_counterexample :
    (Pageable.init 10 2 [⟨"id", Direction.desc⟩]).to_api_query ≠
      "page=2&size=10&sort=id(desc)" := by
  decide

/-- C3 amended: the same construction renders in field declaration order
(`sort`, `size`, `page`), each sort entry as `sort=field(direction)` and the
trailing `&` trimmed, yielding `"sort=id(desc)&size=10&page=2"`. -/
theorem C3_amended :
    (Pageable.init 10 2 [⟨"id", Direction.desc⟩]).to_api_query =
      "sort=id(desc)&size=10&page=2" := by
  rfl

/-- C4 counterexample: on an instant field the raw string
`"2023-05-01T12:00:00"` does not coerce to the naive datetime value for
May 1 2023, 12:00:00 — the source's ISO branch returns
`datetime.fromisoformat(v).timestamp()`, a number, not a datetime. -/
theorem C4_counterexample :
    datetime_or_date_to_timestamp 0 .datetime (.str "2023-05-01T12:00:00") ≠
      .ok (.datetime ⟨2023, 5, 1, 12, 0, 0, 0, Option.none⟩) := by
  decide

/-- C10: the boundary pattern accepts the token `"a(b(asc)"` (its `.+`
absorbs the first parenthesis group) but `Sort.from_str` fails on it: the
slice between the first `(` and the first `)` is `"b(asc"`, which is not a
`Direction` value, so the constructor raises a `ValidationError`.  Acceptance
by the boundary pattern therefore does not guarantee that parsing succeeds. -/
theorem C10_regex_accepts_unparsable :
    query_regex_match "a(b(asc)" = true ∧
    SortCriterion.from_str "a(b(asc)" = .error .validationError := by
  exact ⟨rfl, rfl⟩

/-- C6: for every criterion whose `order_by` contains neither parenthesis,
parsing the rendering round-trips: with no `(`/`)` inside `order_by` the
first `(` and the first `)` of `to_str`'s output are exactly the rendered
delimiters, and the direction text between them is the enum value. -/
theorem C6_round_trip (ob : String) (d : Direction)
    (h1 : '(' ∉ ob.data) (h2 : ')' ∉ ob.data) :
    SortCriterion.from_str (SortCriterion.to_str ⟨ob, d⟩) = .ok ⟨ob, d⟩ := by
  have hs : (SortCriterion.to_str ⟨ob, d⟩).data
      = ob.data ++ '(' :: (d.value.data ++ ')' :: []) := by
    cases d <;>
      simp [SortCriterion.to_str, Direction.value, string_data_append,
        show "(".data = ['('] from rfl, show ")".data = [')'] from rfl,
        show "asc".data = ['a', 's', 'c'] from rfl,
        show "desc".data = ['d', 'e', 's', 'c'] from rfl]
  rw [from_str_decomp _ ob.data d.value.data [] hs h1 h2
    (by cases d <;> decide)]
  cases d <;> simp [Direction.fromValue, string_mk_data, Direction.value]

/-- C6 witness: the round-trip at the concrete criterion `id(desc)`. -/
theorem C6_witness :
    '(' ∉ "id".data ∧ ')' ∉ "id".data ∧
    SortCriterion.from_str (SortCriterion.to_str ⟨"id", Direction.desc⟩) =
      .ok ⟨"id", Direction.desc⟩ :=
  ⟨by decide, by decide, C6_round_trip "id" Direction.desc (by decide) (by decide)⟩

/-- C7 counterexample: on `"a)b(asc)"` the claimed parse (first `)` AFTER the
first `(`) yields `order_by = "a)b"`, ascending; the source instead slices up
to the first `)` of the whole string — here before the `(` — producing an
empty direction and a `ValidationError`. -/
theorem C7_counterexample :
    from_str_spec "a)b(asc)" = .ok ⟨"a)b", Direction.asc⟩ ∧
    SortCriterion.from_str "a)b(asc)" = .error .validationError := by
  exact ⟨rfl, rfl⟩

/-- C7 amended: `from_str` takes everything before the first `(` as
`order_by` and the slice from just after the first `(` up to the first `)`
of the WHOLE string as direction (an empty slice when that `)` lies before
the `(`); it raises when either delimiter is absent or the slice is not an
enum value; `from_str("score(asc)")` yields `score`, ascending. -/
theorem C7_amended :
    SortCriterion.from_str "score(asc)" = .ok ⟨"score", Direction.asc⟩ ∧
    (∀ s : String, '(' ∉ s.data → SortCriterion.from_str s = .error .valueError) ∧
    (∀ s : String, ')' ∉ s.data → SortCriterion.from_str s = .error .valueError) ∧
    (∀ pre dirs post : List Char, '(' ∉ pre → ')' ∉ pre → ')' ∉ dirs →
      SortCriterion.from_str (String.mk (pre ++ '(' :: (dirs ++ ')' :: post))) =
        match Direction.fromValue (String.mk dirs) with
        | some d => .ok { order_by := String.mk pre, direction := d }
        | Option.none => .error .validationError) := by
  refine ⟨by rfl, ?_, ?_, ?_⟩
  · intro s h
    unfold SortCriterion.from_str
    rw [firstIdx_eq_none h]
  · intro s h
    unfold SortCriterion.from_str
    cases hfi : firstIdx '(' s.data with
    | none => rfl
    | some i => rw [firstIdx_eq_none h]
  · intro pre dirs post h1 h2 h3
    exact from_str_decomp _ pre dirs post rfl h1 h2 h3

/-- C4 amended: the ISO branch coerces `"2023-05-01T12:00:00"` on an instant
field to the NUMBER `datetime.fromisoformat(...).timestamp()` — the Unix
timestamp of the naive datetime May 1 2023, 12:00:00 in the process timezone
— not to a datetime value; and every string rejected by both `float()` and
`fromisoformat` makes the coercion raise. -/
theorem C4_amended :
    (∀ tz : Int,
      datetime_or_date_to_timestamp tz .datetime (.str "2023-05-01T12:00:00") =
        .ok (.float (.finite (timestampPy tz ⟨2023, 5, 1, 12, 0, 0, 0, Option.none⟩)))) ∧
    (∀ (tz : Int) (s : String),
      pyFloatParse s = Option.none → fromisoformat s = Option.none →
        datetime_or_date_to_timestamp tz .datetime (.str s) = .error .valueError) := by
  constructor
  · intro tz
    have h1 : pyFloatParse "2023-05-01T12:00:00" = Option.none := by rfl
    have h2 : fromisoformat "2023-05-01T12:00:00"
        = some ⟨2023, 5, 1, 12, 0, 0, 0, Option.none⟩ := by rfl
    simp [datetime_or_date_to_timestamp, floatProbe, pyFloatOf, isIntOrFloat, h1, h2]
  · intro tz s h1 h2
    simp [datetime_or_date_to_timestamp, floatProbe, pyFloatOf, isIntOrFloat, h1, h2]

/-- C8: every numeric input — `int`, `float`, or a string `float()` accepts —
routes through `datetime.fromtimestamp(float(v))`: in range it yields exactly
that instant, out of range (or non-finite) the coercion raises. -/
theorem C8_numeric_fromtimestamp (tz : Int) (v : PyVal) (f : PyFloat)
    (h : numericFloatVal v = some f) :
    datetime_or_date_to_timestamp tz .datetime v =
      match fromtimestampOpt tz f with
      | some dt => .ok (.datetime dt)
      | Option.none => .error .valueError := by
  cases v with
  | int n =>
    simp only [numericFloatVal, Option.some.injEq] at h
    subst h
    rfl
  | float g =>
    simp only [numericFloatVal, Option.some.injEq] at h
    subst h
    rfl
  | str s =>
    simp only [numericFloatVal] at h
    simp [datetime_or_date_to_timestamp, floatProbe, pyFloatOf, isIntOrFloat, h]
  | none => simp [numericFloatVal] at h
  | bool b => simp [numericFloatVal] at h
  | datetime dt => simp [numericFloatVal] at h
  | date dd => simp [numericFloatVal] at h
  | other => simp [numericFloatVal] at h

/-- C8 witness: the Unix timestamp 1700000000 on an instant field coerces to
the naive local datetime 2023-11-14 22:13:20 (UTC process timezone). -/
theorem C8_witness :
    numericFloatVal (.int 1700000000) = some (.finite 1700000000) ∧
    datetime_or_date_to_timestamp 0 .datetime (.int 1700000000) =
      .ok (.datetime ⟨2023, 11, 14, 22, 13, 20, 0, Option.none⟩) := by
  refine ⟨by decide, ?_⟩
  rw [C8_numeric_fromtimestamp 0 (.int 1700000000) (.finite 1700000000) (by decide)]
  decide

/-- Python's `$` accepts exactly the empty remainder or one trailing
newline. -/
theorem pyDollar_iff (e : List Char) :
    pyDollar e = true ↔ e = [] ∨ e = ['\n'] := by
  match e with
  | [] => simp [pyDollar]
  | [c] =>
    simp [pyDollar]
  | c1 :: c2 :: rest => simp [pyDollar]

/-- `isPrefixOf` as an existence of a remainder. -/
theorem isPrefixOf_exists (p l : List Char) :
    p.isPrefixOf l = true ↔ ∃ t, l = p ++ t := by
  induction p generalizing l with
  | nil => simp [List.isPrefixOf]
  | cons c cs ih =>
    cases l with
    | nil => simp [List.isPrefixOf]
    | cons x xs =>
      simp only [List.isPrefixOf, Bool.and_eq_true, beq_iff_eq, ih, List.cons_append,
        List.cons.injEq]
      constructor
      · rintro ⟨rfl, t, rfl⟩
        exact ⟨t, rfl, rfl⟩
      · rintro ⟨t, rfl, rfl⟩
        exact ⟨rfl, t, rfl⟩

/-- One alternative of the `\((?:…)\)$` tail: it matches at this position
exactly when the input is the literal `(d)` followed by a `$`-accepted
remainder. -/
theorem prefixTail_iff (dl cs : List Char) :
    ((('(' :: dl ++ [')']).isPrefixOf cs && pyDollar (cs.drop (dl.length + 2))) = true)
      ↔ ∃ e, (e = [] ∨ e = ['\n']) ∧ cs = '(' :: dl ++ ')' :: e := by
  rw [Bool.and_eq_true, isPrefixOf_exists]
  have hl : ('(' :: dl ++ [')']).length = dl.length + 2 := by simp
  constructor
  · rintro ⟨⟨t, rfl⟩, hd⟩
    rw [← hl, List.drop_left] at hd
    exact ⟨t, (pyDollar_iff t).mp hd, by simp⟩
  · rintro ⟨e, he, rfl⟩
    refine ⟨⟨e, by simp⟩, ?_⟩
    rw [show '(' :: dl ++ ')' :: e = ('(' :: dl ++ [')']) ++ e by simp,
      ← hl, List.drop_left]
    exact (pyDollar_iff e).mpr he

/-- The `\((?:asc|desc)\)$` tail matches exactly the strings `(d)` + `$`-tail
for an enum value `d`. -/
theorem parenSuffix_iff (cs : List Char) :
    parenSuffix cs = true ↔
      ∃ d e, d ∈ Direction.values ∧ (e = [] ∨ e = ['\n']) ∧
        cs = '(' :: d.data ++ ')' :: e := by
  have hval : Direction.values = ["asc", "desc"] := by rfl
  simp only [parenSuffix, hval, List.any_cons, List.any_nil, Bool.or_false,
    Bool.or_eq_true, prefixTail_iff]
  constructor
  · rintro (⟨e, he, rfl⟩ | ⟨e, he, rfl⟩)
    · exact ⟨"asc", e, by simp, he, rfl⟩
    · exact ⟨"desc", e, by simp, he, rfl⟩
  · rintro ⟨d, e, hd, he, rfl⟩
    simp only [List.mem_cons, List.mem_singleton, List.not_mem_nil, or_false] at hd
    rcases hd with rfl | rfl
    · exact Or.inl ⟨e, he, rfl⟩
    · exact Or.inr ⟨e, he, rfl⟩

/-- The `.+`-then-tail scan succeeds exactly on inputs splitting into a
newline-free prefix (possibly empty) and a tail accepted by the suffix
matcher. -/
theorem dotPlusThen_iff (cs : List Char) :
    dotPlusThen cs = true ↔
      ∃ t u, cs = t ++ u ∧ '\n' ∉ t ∧ parenSuffix u = true := by
  induction cs with
  | nil =>
    constructor
    · intro h
      exact ⟨[], [], rfl, by simp, h⟩
    · rintro ⟨t, u, h, hn, hp⟩
      rcases List.append_eq_nil.mp h.symm with ⟨rfl, rfl⟩
      exact hp
  | cons c cs ih =>
    simp only [dotPlusThen, Bool.or_eq_true, Bool.and_eq_true, bne_iff_ne, ne_eq, ih]
    constructor
    · rintro (h | ⟨hc, t, u, rfl, hn, hp⟩)
      · exact ⟨[], c :: cs, rfl, by simp, h⟩
      · refine ⟨c :: t, u, rfl, ?_, hp⟩
        simp only [List.mem_cons, not_or]
        exact ⟨fun he => hc he.symm, hn⟩
    · rintro ⟨t, u, hcs, hn, hp⟩
      cases t with
      | nil =>
        rw [List.nil_append] at hcs
        exact Or.inl (hcs ▸ hp)
      | cons x t' =>
        rw [List.cons_append] at hcs
        injection hcs with h1 h2
        subst h1
        simp only [List.mem_cons, not_or] at hn
        exact Or.inr ⟨fun he => hn.1 he.symm, t', u, h2, hn.2, hp⟩

/-- C9 counterexample: Python's `$` also matches just before a trailing
newline, so the pattern accepts `"id(desc)\n"`, which is not of the claimed
form `<non-empty text>(asc|desc)`. -/
theorem C9_counterexample :
    query_regex_match "id(desc)\n" = true ∧ claimedShapeB "id(desc)\n" = false := by
  exact ⟨rfl, rfl⟩

/-- C9 amended: the pattern matches exactly the strings made of a non-empty
newline-free text, `(`, an enum direction value, `)`, and an optional single
trailing newline; in particular it matches `"id(desc)"` and `"name(asc)"` and
rejects `"id(ascending)"` and `"id"`. -/
theorem C9_amended :
    (∀ s : String, query_regex_match s = true ↔
      ∃ (t : List Char) (d : String) (e : List Char),
        d ∈ Direction.values ∧ (e = [] ∨ e = ['\n']) ∧ t ≠ [] ∧ '\n' ∉ t ∧
        s.data = t ++ '(' :: d.data ++ ')' :: e) ∧
    query_regex_match "id(desc)" = true ∧
    query_regex_match "name(asc)" = true ∧
    query_regex_match "id(ascending)" = false ∧
    query_regex_match "id" = false := by
  refine ⟨?_, rfl, rfl, rfl, rfl⟩
  intro s
  unfold query_regex_match
  rcases hsd : s.data with _ | ⟨c, cs⟩
  · constructor
    · intro h
      exact Bool.noConfusion h
    · rintro ⟨t, d, e, hd, he, hne, hn, heq⟩
      cases t with
      | nil => exact absurd rfl hne
      | cons x t' => cases heq
  · show (c != '\n' && dotPlusThen cs) = true ↔ _
    simp only [Bool.and_eq_true, bne_iff_ne, ne_eq, dotPlusThen_iff]
    constructor
    · rintro ⟨hc, t, u, rfl, hn, hp⟩
      obtain ⟨d, e, hd, he, rfl⟩ := (parenSuffix_iff u).mp hp
      refine ⟨c :: t, d, e, hd, he, by simp, ?_, by simp⟩
      simp only [List.mem_cons, not_or]
      exact ⟨fun he2 => hc he2.symm, hn⟩
    · rintro ⟨t, d, e, hd, he, hne, hn, heq⟩
      cases t with
      | nil => exact absurd rfl hne
      | cons x t' =>
        rw [List.cons_append] at heq
        injection heq with h1 h2
        subst h1
        simp only [List.mem_cons, not_or] at hn
        refine ⟨fun he2 => hn.1 he2.symm, t', '(' :: d.data ++ ')' :: e, ?_, hn.2, ?_⟩
        · simpa [List.append_assoc] using h2
        · exact (parenSuffix_iff _).mpr ⟨d, e, hd, he, rfl⟩
